import Mathlib

/-!
Verification development for the keycloak-gatekeeper request pipeline.

Shallow embedding of the cookie envelope (dropCookie, getMaxCookieChunkLength,
dropCookieWithChunks, clearAccessTokenCookie, clearRefreshTokenCookie,
writeStateParameterCookie), the OIDC client helpers (verifyToken,
getRefreshedToken) and the middleware decisions (authenticationMiddleware,
admissionMiddleware, csrfSkipResourceMiddleware).

Conventions: Go byte strings are `List Nat` where byte-level slicing matters and
`String` elsewhere; Go `time.Duration` and `time.Time` are `Int` (the unit is
irrelevant to the properties proved); Go `int` is `Int` where overflow or sign
matters; fallible external collaborators (the JWT verifier, the provider, the
JSON decoder) enter as explicit result parameters.
-/

/-- The fields of the proxy configuration that the embedded functions read
(config.go is not part of the verified sources; field names follow the Go
struct). -/
structure Config where
  CookieDomain : String
  HTTPOnlyCookie : Bool
  EnableSessionCookies : Bool
  SecureCookie : Bool
  CookieAccessName : String
  CookieRefreshName : String
  SkipTokenVerification : Bool
  EnableRefreshTokens : Bool
  EnableCSRF : Bool
  RequiredScopes : List String
  deriving Repr, DecidableEq

/-- Go `strings.Split(host, ":")[0]`: the host portion of a Host header with
any port stripped.  `strings.Split` always returns a non-empty slice, so
index 0 is total. -/
def hostWithoutPort (host : String) : String :=
  String.mk (host.toList.takeWhile (fun c => c != ':'))

/-- Embedding of `getMaxCookieChunkLength` (cookies.go): the per-request chunk
budget.  Go `int` arithmetic can go negative, hence `Int`. -/
def getMaxCookieChunkLength (cfg : Config) (reqHost : String) (cookieName : String) : Int :=
  let m0 : Int := 4069 - cookieName.length
  let m1 : Int :=
    if cfg.CookieDomain ≠ "" then m0 - cfg.CookieDomain.length
    else m0 - (hostWithoutPort reqHost).length
  let m2 : Int := if cfg.HTTPOnlyCookie then m1 - ("HttpOnly; ".length : Int) else m1
  let m3 : Int :=
    if !cfg.EnableSessionCookies then m2 - ("Expires=Mon, 02 Jan 2006 03:04:05 MST; ".length : Int)
    else m2
  let m4 : Int := if cfg.SecureCookie then m3 - ("Secure".length : Int) else m3
  m4

/-- What the spec's words claim for the budget (4.1): the Expires subtraction is
conditioned on session cookies being disabled AND the ttl being non-zero.  Kept
separate from the source embedding so the two can be compared. -/
def specClaimedChunkLength (cfg : Config) (reqHost : String) (cookieName : String)
    (ttl : Int) : Int :=
  let m0 : Int := 4069 - cookieName.length
  let m1 : Int :=
    if cfg.CookieDomain ≠ "" then m0 - cfg.CookieDomain.length
    else m0 - (hostWithoutPort reqHost).length
  let m2 : Int := if cfg.HTTPOnlyCookie then m1 - ("HttpOnly; ".length : Int) else m1
  let m3 : Int :=
    if !cfg.EnableSessionCookies ∧ ttl ≠ 0 then
      m2 - ("Expires=Mon, 02 Jan 2006 03:04:05 MST; ".length : Int)
    else m2
  let m4 : Int := if cfg.SecureCookie then m3 - ("Secure".length : Int) else m3
  m4

/-- An `http.Cookie` as assembled by `dropCookie` and handed to
`http.SetCookie`.  `expires = none` models a cookie without an Expires
attribute (a session cookie). -/
structure SetCookie where
  domain : String
  httpOnly : Bool
  name : String
  path : String
  secure : Bool
  value : String
  expires : Option Int
  deriving Repr, DecidableEq

/-- Embedding of `dropCookie` (cookies.go): `now` stands for `time.Now()` and
`duration` for the Go `time.Duration` argument. -/
def dropCookie (cfg : Config) (now : Int) (host name value : String) (duration : Int) : SetCookie :=
  let domain := if cfg.CookieDomain ≠ "" then cfg.CookieDomain else hostWithoutPort host
  { domain := domain
    httpOnly := cfg.HTTPOnlyCookie
    name := name
    path := "/"
    secure := cfg.SecureCookie
    value := value
    expires := if !cfg.EnableSessionCookies ∧ duration ≠ 0 then some (now + duration) else none }

example : getMaxCookieChunkLength ⟨"", false, true, false, "a", "r", false, false, false, []⟩
    "example.com:443" "kc-access" = 4069 - 9 - 11 := by decide

/-- Go byte strings, for the code paths where byte-level slicing matters. -/
abbrev Bytes := List Nat

/-- Go slice expression `v[lo:hi]`: defined iff `0 ≤ lo ≤ hi ≤ len(v)`,
otherwise a runtime panic (`none`). -/
def goSlice (v : Bytes) (lo hi : Int) : Option Bytes :=
  if 0 ≤ lo ∧ lo ≤ hi ∧ hi ≤ (v.length : Int) then
    some ((v.drop lo.toNat).take (hi - lo).toNat)
  else none

/-- Go integer division `n / d`: truncates toward zero; panics (`none`) when
`d = 0`. -/
def goIntDiv (n d : Int) : Option Int :=
  if d = 0 then none else some (Int.tdiv n d)

/-- Outcome of running `dropCookieWithChunks` under a fuel bound: the emitted
`(name, value)` cookies, or one of the two Go runtime panics it can hit, or
fuel exhaustion (marking divergence of the unbounded loop). -/
inductive ChunkOutcome where
  | outOfFuel
  | slicePanic
  | divByZeroPanic
  | done (cookies : List (String × Bytes))
  deriving Repr, DecidableEq

/-- The chunk loop of `dropCookieWithChunks` (cookies.go line 78):
`for i := maxCookieChunkLength; i < len(value); i += maxCookieChunkLength`.
`fuel` bounds the number of iterations; the Go loop has no such bound. -/
def chunkLoop (name : String) (value : Bytes) (B : Int) :
    Nat → Int → List (String × Bytes) → ChunkOutcome
  | 0, _, _ => .outOfFuel
  | fuel + 1, i, acc =>
    if i < (value.length : Int) then
      let e := min (i + B) (value.length : Int)
      match goIntDiv i B with
      | none => .divByZeroPanic
      | some q =>
        match goSlice value i e with
        | none => .slicePanic
        | some chunk =>
          chunkLoop name value B fuel (i + B) (acc ++ [(name ++ "-" ++ toString q, chunk)])
    else .done acc

/-- Embedding of `dropCookieWithChunks` (cookies.go): `B` is the result of
`getMaxCookieChunkLength` for this request and name. -/
def dropCookieWithChunksFuel (fuel : Nat) (name : String) (value : Bytes) (B : Int) :
    ChunkOutcome :=
  if (value.length : Int) ≤ B then .done [(name, value)]
  else
    match goSlice value 0 B with
    | none => .slicePanic
    | some first => chunkLoop name value B fuel B [(name, first)]

/-- Number of chunks `⌈len / B⌉` the envelope splits into. -/
def numChunks (len B : Nat) : Nat := (len + B - 1) / B

/-- The name of the i-th chunk cookie (i ≥ 1): `name + "-" + strconv.Itoa i`. -/
def chunkName (name : String) (i : Nat) : String := name ++ "-" ++ toString (Int.ofNat i)

/-- The cookie list `dropCookieWithChunks` is expected to emit for a positive
budget `B`: one cookie when the value fits, else the dense chunk series. -/
def specChunks (name : String) (value : Bytes) (B : Nat) : List (String × Bytes) :=
  if value.length ≤ B then [(name, value)]
  else
    (List.range (numChunks value.length B)).map fun j =>
      (if j = 0 then name else chunkName name j, (value.drop (j * B)).take B)

example :
    dropCookieWithChunksFuel 5 "c" [0, 1, 2, 3, 4] 2 =
      .done [("c", [0, 1]), ("c-1", [2, 3]), ("c-2", [4])] := by decide

example : specChunks "c" [0, 1, 2, 3, 4] 2 =
    [("c", [0, 1]), ("c-1", [2, 3]), ("c-2", [4])] := by decide

example : dropCookieWithChunksFuel 5 "c" [0, 1] 0 = .divByZeroPanic := by decide

example : dropCookieWithChunksFuel 5 "c" [0, 1] (-3) = .slicePanic := by decide

example : dropCookieWithChunksFuel 5 "c" [] 0 = .done [("c", [])] := by decide

lemma lt_numChunks_iff {len b j : Nat} (hb : 0 < b) :
    j < numChunks len b ↔ j * b < len := by
  unfold numChunks
  rw [Nat.lt_iff_add_one_le, Nat.le_div_iff_mul_le hb, Nat.succ_mul]
  generalize j * b = m
  omega

lemma numChunks_le_len {len b : Nat} (hb : 0 < b) : numChunks len b ≤ len := by
  by_contra h
  have h1 : len * b < len := (lt_numChunks_iff hb).mp (by omega)
  have h2 : len ≤ len * b := Nat.le_mul_of_pos_right len hb
  omega

lemma numChunks_drop {b : Nat} (hb : 0 < b) (len : Nat) (h : b < len) :
    numChunks (len - b) b = numChunks len b - 1 := by
  unfold numChunks
  have e : len - b + b - 1 + b = len + b - 1 := by omega
  rw [← e, Nat.add_div_right _ hb, Nat.succ_sub_one]

lemma range_chunks_join_aux (b : Nat) (hb : 0 < b) :
    ∀ (k : Nat) (v : Bytes), numChunks v.length b = k →
      ((List.range k).map fun j => (v.drop (j * b)).take b).flatten = v := by
  intro k
  induction k with
  | zero =>
    intro v hv
    have : v.length = 0 := by
      unfold numChunks at hv
      have h1 : v.length ≤ 0 * b := by
        by_contra h
        have := (@lt_numChunks_iff v.length b 0 hb).mpr (by omega)
        unfold numChunks at this
        omega
      omega
    simp [List.length_eq_zero.mp this]
  | succ k ih =>
    intro v hv
    have hlenpos : 0 < v.length := by
      by_contra h
      have hv0 : v.length = 0 := by omega
      unfold numChunks at hv
      rw [hv0] at hv
      have : (0 + b - 1) / b = 0 := Nat.div_eq_of_lt (by omega)
      omega
    have hdrop : numChunks (v.drop b).length b = k := by
      rw [List.length_drop]
      by_cases hbl : b < v.length
      · have := numChunks_drop hb v.length hbl
        omega
      · have hse : v.length - b = 0 := by omega
        rw [hse]
        have h0 : numChunks 0 b = 0 := by
          unfold numChunks; exact Nat.div_eq_of_lt (by omega)
        have h1 : numChunks v.length b = 1 := by
          unfold numChunks
          have hlt : (v.length + b - 1) / b < 2 := by
            rw [Nat.div_lt_iff_lt_mul hb]; omega
          have hge : 1 ≤ (v.length + b - 1) / b := by
            rw [Nat.le_div_iff_mul_le hb]; omega
          omega
        omega
    have hrec := ih (v.drop b) hdrop
    rw [List.range_succ_eq_map]
    simp only [List.map_cons, List.map_map, List.flatten_cons]
    have hshift :
        ((List.range k).map ((fun j => (v.drop (j * b)).take b) ∘ Nat.succ)) =
          (List.range k).map fun j => ((v.drop b).drop (j * b)).take b := by
      apply List.map_congr_left
      intro a _
      simp only [Function.comp_apply, List.drop_drop]
      rw [Nat.succ_mul, Nat.add_comm (a * b) b]
    rw [hshift, hrec]
    simp

lemma chunkLoop_done (name : String) (v : Bytes) (b : Nat) (hb : 0 < b) :
    ∀ (k fuel j : Nat) (acc : List (String × Bytes)),
      numChunks v.length b - j = k → k < fuel →
      chunkLoop name v (b : Int) fuel ((j * b : Nat) : Int) acc =
        .done (acc ++ (List.range' j k).map fun t =>
          (chunkName name t, (v.drop (t * b)).take b)) := by
  intro k
  induction k with
  | zero =>
    intro fuel j acc hk hf
    obtain ⟨f, rfl⟩ : ∃ f, fuel = f + 1 := ⟨fuel - 1, by omega⟩
    have hge : ¬ (j * b < v.length) := by
      intro h
      have := (lt_numChunks_iff hb).mpr h
      omega
    have hcond : ¬ (((j * b : Nat) : Int) < (v.length : Int)) := by exact_mod_cast hge
    simp only [chunkLoop]
    rw [if_neg hcond]
    simp [List.range']
  | succ k ih =>
    intro fuel j acc hk hf
    obtain ⟨f, rfl⟩ : ∃ f, fuel = f + 1 := ⟨fuel - 1, by omega⟩
    have hjlt : j * b < v.length := (lt_numChunks_iff hb).mp (by omega)
    have hcond : ((j * b : Nat) : Int) < (v.length : Int) := by exact_mod_cast hjlt
    have hdiv : goIntDiv ((j * b : Nat) : Int) (b : Int) = some (Int.ofNat j) := by
      unfold goIntDiv
      rw [if_neg (by exact_mod_cast hb.ne')]
      congr 1
      show Int.tdiv (Int.ofNat (j * b)) (Int.ofNat b) = Int.ofNat j
      show Int.ofNat (j * b / b) = Int.ofNat j
      rw [Nat.mul_div_left j hb]
    have hminle : j * b ≤ min (j * b + b) v.length :=
      le_min (by omega) (le_of_lt hjlt)
    have hsl : goSlice v ((j * b : Nat) : Int)
        (min (((j * b : Nat) : Int) + (b : Int)) ((v.length : Nat) : Int)) =
          some ((v.drop (j * b)).take b) := by
      rw [← Nat.cast_add, ← Nat.cast_min]
      unfold goSlice
      rw [if_pos ⟨Int.ofNat_nonneg _, by exact_mod_cast hminle,
        by exact_mod_cast min_le_right (j * b + b) v.length⟩]
      congr 1
      rw [← Nat.cast_sub hminle, Int.toNat_natCast, Int.toNat_natCast]
      apply List.take_eq_take.mpr
      rw [List.length_drop]
      generalize j * b = m at *
      omega
    simp only [chunkLoop, if_pos hcond, hdiv, hsl]
    have hcast : ((j * b : Nat) : Int) + (b : Int) = (((j + 1) * b : Nat) : Int) := by
      push_cast
      ring
    rw [hcast, ih f (j + 1) _ (by omega) (by omega)]
    rw [List.range'_succ]
    simp [chunkName, List.append_assoc]

lemma numChunks_pos {len b : Nat} (hb : 0 < b) (hlen : 0 < len) :
    0 < numChunks len b := by
  have := (@lt_numChunks_iff len b 0 hb).mpr (by omega)
  omega

lemma dropChunks_pos (name : String) (v : Bytes) (B : Int) (hB : 0 < B)
    (fuel : Nat) (hfuel : v.length ≤ fuel) :
    dropCookieWithChunksFuel fuel name v B = .done (specChunks name v B.toNat) := by
  have hBb : B = (B.toNat : Int) := (Int.toNat_of_nonneg hB.le).symm
  set b := B.toNat with hbdef
  have hb : 0 < b := by
    rw [hBb] at hB
    exact_mod_cast hB
  rw [hBb]
  unfold dropCookieWithChunksFuel specChunks
  by_cases hle : v.length ≤ b
  · rw [if_pos (by exact_mod_cast hle), if_pos hle]
  · have hlt : b < v.length := by omega
    rw [if_neg (by exact_mod_cast hle), if_neg hle]
    have hs0 : goSlice v 0 (b : Int) = some (v.take b) := by
      unfold goSlice
      rw [if_pos ⟨le_refl 0, by exact_mod_cast Nat.zero_le b, by exact_mod_cast hlt.le⟩]
      simp
    simp only [hs0]
    have hnc : 0 < numChunks v.length b := numChunks_pos hb (by omega)
    have happ := chunkLoop_done name v b hb (numChunks v.length b - 1) fuel 1
      [(name, v.take b)] rfl (by have := @numChunks_le_len v.length b hb; omega)
    rw [Nat.one_mul] at happ
    rw [happ]
    congr 1
    obtain ⟨K, hK⟩ : ∃ K, numChunks v.length b = K + 1 :=
      ⟨numChunks v.length b - 1, by omega⟩
    rw [hK, List.range_eq_range', List.range'_succ, Nat.add_sub_cancel]
    simp only [List.map_cons, List.singleton_append]
    congr 1
    · simp
    · apply List.map_congr_left
      intro t ht
      have h1t : 1 ≤ t := by
        have := (List.mem_range'_1.mp ht).1
        omega
      rw [if_neg (by omega)]

lemma specChunks_flatten (name : String) (v : Bytes) (b : Nat) (hb : 0 < b) :
    ((specChunks name v b).map Prod.snd).flatten = v := by
  unfold specChunks
  by_cases hle : v.length ≤ b
  · rw [if_pos hle]; simp
  · rw [if_neg hle]
    rw [List.map_map]
    have : (Prod.snd ∘ fun j => ((if j = 0 then name else chunkName name j : String),
        (v.drop (j * b)).take b)) = fun j => (v.drop (j * b)).take b := by
      funext j
      simp
    rw [this]
    exact range_chunks_join_aux b hb _ v rfl

/-- Claim C1: with a positive chunk budget `B`, `dropCookieWithChunks` emits one
cookie `name=value` when the value fits, and otherwise the dense chunk series
`name, name-1, name-2, ...` of successive length-`B` slices (the final slice
possibly shorter), whose values concatenate back to exactly the original
value. -/
theorem claim_C1_chunk_roundtrip (name : String) (value : Bytes) (B : Int)
    (hB : 0 < B) (fuel : Nat) (hfuel : value.length ≤ fuel) :
    dropCookieWithChunksFuel fuel name value B = .done (specChunks name value B.toNat) ∧
    ((specChunks name value B.toNat).map Prod.snd).flatten = value ∧
    (value.length ≤ B.toNat → specChunks name value B.toNat = [(name, value)]) ∧
    (B.toNat < value.length →
      (specChunks name value B.toNat).length = numChunks value.length B.toNat ∧
      ∀ j, 1 ≤ j → j < numChunks value.length B.toNat →
        (specChunks name value B.toNat).get? j =
          some (chunkName name j, (value.drop (j * B.toNat)).take B.toNat)) := by
  have hb : 0 < B.toNat := by
    have := Int.toNat_of_nonneg hB.le
    omega
  refine ⟨dropChunks_pos name value B hB fuel hfuel, specChunks_flatten name value B.toNat hb,
    fun h => by rw [specChunks, if_pos h], fun h => ?_⟩
  constructor
  · rw [specChunks, if_neg (by omega)]
    simp
  · intro j h1j hjn
    rw [specChunks, if_neg (by omega)]
    rw [List.get?_map, List.get?_range hjn]
    have hj0 : j ≠ 0 := by omega
    simp [hj0]

theorem claim_C1_witness :
    (0 : Int) < 2 ∧ ([0, 1, 2, 3, 4] : Bytes).length ≤ 5 ∧
    dropCookieWithChunksFuel 5 "c" [0, 1, 2, 3, 4] 2 =
      .done (specChunks "c" [0, 1, 2, 3, 4] (2 : Int).toNat) ∧
    ((specChunks "c" [0, 1, 2, 3, 4] (2 : Int).toNat).map Prod.snd).flatten =
      [0, 1, 2, 3, 4] :=
  ⟨by decide, by decide,
   (claim_C1_chunk_roundtrip "c" [0, 1, 2, 3, 4] 2 (by decide) 5 (by decide)).1,
   (claim_C1_chunk_roundtrip "c" [0, 1, 2, 3, 4] 2 (by decide) 5 (by decide)).2.1⟩

/-- A cookie name of `n` characters, to drive the budget to zero or below. -/
def longName (n : Nat) : String := String.mk (List.replicate n 'a')

/-- A configuration with a one-character cookie domain and all attribute flags
off: the budget is then `4069 - len(name) - 1`. -/
def cfgZero : Config := ⟨"d", false, true, false, "access", "refresh", false, false, false, []⟩

lemma longName_length (n : Nat) : (longName n).length = n := by
  simp [longName, String.length]

lemma cfgZero_budget (name : String) :
    getMaxCookieChunkLength cfgZero "h" name = 4068 - name.length := by
  simp [getMaxCookieChunkLength, cfgZero]
  have h1 : ("d" : String).length = 1 := rfl
  rw [h1]
  omega

/-- Claim C10 counterexample: with budget `0` and the one-byte value `[7]`, the
chunk loop terminates abnormally at its first iteration — `strconv.Itoa(i/B)`
divides by zero — rather than looping forever as the claim asserts. -/
theorem claim_C10_counterexample :
    dropCookieWithChunksFuel 2 "c" [7] 0 = ChunkOutcome.divByZeroPanic ∧
    dropCookieWithChunksFuel 2 "c" [7] 0 ≠ ChunkOutcome.outOfFuel := by decide

/-- Claim C10 (amended): `dropCookieWithChunks` terminates normally for every
value only under a positive budget.  `getMaxCookieChunkLength` can return zero
or a negative number; a negative budget panics on the slice
`value[0:negative]`; a zero budget panics with integer division by zero while
naming the first extra chunk (it does not loop forever); a positive budget
always produces the chunk series. -/
theorem claim_C10_budget_precondition :
    getMaxCookieChunkLength cfgZero "h" (longName 4068) = 0 ∧
    getMaxCookieChunkLength cfgZero "h" (longName 5000) < 0 ∧
    (∀ (name : String) (v : Bytes) (B : Int) (fuel : Nat), B < 0 →
      dropCookieWithChunksFuel fuel name v B = .slicePanic) ∧
    (∀ (name : String) (v : Bytes) (fuel : Nat), v ≠ [] → 0 < fuel →
      dropCookieWithChunksFuel fuel name v 0 = .divByZeroPanic) ∧
    (∀ (name : String) (v : Bytes) (B : Int) (fuel : Nat), 0 < B → v.length ≤ fuel →
      dropCookieWithChunksFuel fuel name v B = .done (specChunks name v B.toNat)) := by
  refine ⟨by rw [cfgZero_budget, longName_length]; norm_num,
    by rw [cfgZero_budget, longName_length]; norm_num,
    ?_, ?_, fun name v B fuel hB hf => dropChunks_pos name v B hB fuel hf⟩
  · intro name v B fuel hB
    unfold dropCookieWithChunksFuel
    rw [if_neg (by have : (0 : Int) ≤ (v.length : Int) := Int.ofNat_nonneg _; omega)]
    have hnone : goSlice v 0 B = none := by
      unfold goSlice
      exact if_neg (fun h => absurd h.2.1 (by omega))
    rw [hnone]
  · intro name v fuel hv hf
    cases v with
    | nil => exact absurd rfl hv
    | cons x xs =>
      obtain ⟨f, rfl⟩ : ∃ f, fuel = f + 1 := ⟨fuel - 1, by omega⟩
      unfold dropCookieWithChunksFuel
      have hlen : (0 : Int) < ((x :: xs).length : Int) := by
        exact_mod_cast Nat.succ_pos xs.length
      rw [if_neg (by omega)]
      have h0 : goSlice (x :: xs) 0 0 = some [] := by
        unfold goSlice
        rw [if_pos ⟨le_refl 0, le_refl 0, by omega⟩]
        simp
      simp only [h0]
      simp only [chunkLoop]
      rw [if_pos hlen]
      simp [goIntDiv]

theorem claim_C10_witness :
    ((-3 : Int) < 0 ∧ dropCookieWithChunksFuel 1 "c" [7] (-3) = .slicePanic) ∧
    (([7] : Bytes) ≠ [] ∧ (0 : Nat) < 1 ∧
      dropCookieWithChunksFuel 1 "c" [7] 0 = .divByZeroPanic) :=
  ⟨⟨by decide, claim_C10_budget_precondition.2.2.1 "c" [7] (-3) 1 (by decide)⟩,
   ⟨by decide, by decide, claim_C10_budget_precondition.2.2.2.1 "c" [7] 1 (by decide) (by decide)⟩⟩

/-- A configuration with session cookies disabled, a one-character domain, and
the other attribute flags off. -/
def cfgNoSess : Config := ⟨"d", false, false, false, "access", "refresh", false, false, false, []⟩

/-- Claim C2 counterexample: with session cookies disabled and ttl = 0, the code
still subtracts the 39-byte Expires template (budget 4023), while the claim's
"session cookies disabled and ttl non-zero" condition would leave 4062. -/
theorem claim_C2_counterexample :
    getMaxCookieChunkLength cfgNoSess "h" "access" = 4023 ∧
    specClaimedChunkLength cfgNoSess "h" "access" 0 = 4062 ∧
    getMaxCookieChunkLength cfgNoSess "h" "access" ≠
      specClaimedChunkLength cfgNoSess "h" "access" 0 := by decide

/-- Claim C2 (amended): the budget is 4069 minus the name length, minus the
configured cookie domain (or the port-stripped Host), minus 10 for
`"HttpOnly; "` when HTTP-only is enabled, minus 39 for the Expires template
whenever session cookies are disabled (regardless of any ttl), and minus 6 for
`"Secure"` when the Secure flag is enabled. -/
theorem claim_C2_budget (cfg : Config) (host name : String) :
    getMaxCookieChunkLength cfg host name =
      4069 - (name.length : Int)
        - (if cfg.CookieDomain = "" then ((hostWithoutPort host).length : Int)
           else (cfg.CookieDomain.length : Int))
        - (if cfg.HTTPOnlyCookie then 10 else 0)
        - (if cfg.EnableSessionCookies then 0 else 39)
        - (if cfg.SecureCookie then 6 else 0) := by
  unfold getMaxCookieChunkLength
  have h10 : (("HttpOnly; " : String).length : Int) = 10 := rfl
  have h39 : (("Expires=Mon, 02 Jan 2006 03:04:05 MST; " : String).length : Int) = 39 := rfl
  have h6 : (("Secure" : String).length : Int) = 6 := rfl
  rw [h10, h39, h6]
  by_cases hd : cfg.CookieDomain = "" <;>
    by_cases hh : cfg.HTTPOnlyCookie <;>
      by_cases hs : cfg.EnableSessionCookies <;>
        by_cases hc : cfg.SecureCookie <;>
          simp [hd, hh, hs, hc]

/-- Modelled from the spec: the `request_uri` cookie name constant lives in
constants.go, which is not among the verified sources; section 6 of the spec
gives its logical name. -/
def requestURICookie : String := "request_uri"

/-- Modelled from the spec: the `request_state` cookie name constant lives in
constants.go, which is not among the verified sources; section 6 of the spec
gives its logical name. -/
def requestStateCookie : String := "request_state"

/-- The standard base64 alphabet, for `base64.StdEncoding`. -/
def base64Table : List Char :=
  "ABCDEFGHIJKLMNOPQRSTUVWXYZabcdefghijklmnopqrstuvwxyz0123456789+/".toList

def b64char (n : Nat) : Char := base64Table.getD n 'A'

/-- `base64.StdEncoding.EncodeToString`: standard base64 with `=` padding. -/
def base64Encode : Bytes → String
  | [] => ""
  | [a] => String.mk [b64char (a / 4), b64char (a % 4 * 16), '=', '=']
  | [a, b] => String.mk [b64char (a / 4), b64char (a % 4 * 16 + b / 16),
      b64char (b % 16 * 4), '=']
  | a :: b :: c :: rest =>
      String.mk [b64char (a / 4), b64char (a % 4 * 16 + b / 16),
        b64char (b % 16 * 4 + c / 64), b64char (c % 64)] ++ base64Encode rest

example : base64Encode [47, 97, 112, 105] = "L2FwaQ==" := by decide

/-- Embedding of `writeStateParameterCookie` (cookies.go): `uuid` stands for the
freshly generated `uuid.NewV4().String()` and `requestURIBytes` for the bytes
of `req.URL.RequestURI()`.  Returns the `http.SetCookie` calls in order and the
function's return value. -/
def writeStateParameterCookie (cfg : Config) (now : Int) (host : String)
    (requestURIBytes : Bytes) (uuid : String) : List SetCookie × String :=
  ([dropCookie cfg now host requestURICookie (base64Encode requestURIBytes) 0,
    dropCookie cfg now host requestStateCookie uuid 0], uuid)

/-- Claim C9: `writeStateParameterCookie` writes the `request_uri` cookie with
the base64 of the requested URI and the `request_state` cookie with the fresh
UUID, both without an Expires attribute (`dropCookie` with duration 0 never
sets Expires, whatever `EnableSessionCookies` is), and returns the UUID. -/
theorem claim_C9_state_cookies (cfg : Config) (now : Int) (host : String)
    (requestURIBytes : Bytes) (uuid : String) :
    (writeStateParameterCookie cfg now host requestURIBytes uuid).2 = uuid ∧
    (writeStateParameterCookie cfg now host requestURIBytes uuid).1 =
      [dropCookie cfg now host requestURICookie (base64Encode requestURIBytes) 0,
       dropCookie cfg now host requestStateCookie uuid 0] ∧
    ((writeStateParameterCookie cfg now host requestURIBytes uuid).1.map
        fun c => (c.name, c.value, c.expires)) =
      [(requestURICookie, base64Encode requestURIBytes, none),
       (requestStateCookie, uuid, none)] ∧
    (∀ (n v : String), (dropCookie cfg now host n v 0).expires = none) := by
  refine ⟨rfl, rfl, ?_, fun n v => ?_⟩
  · simp [writeStateParameterCookie, dropCookie]
  · simp [dropCookie]

/-- The divided-cookie clearing loop shared by `clearRefreshTokenCookie` and
`clearAccessTokenCookie` (cookies.go): probe `base-i` by name lookup in the
incoming request (`req.Cookie`), emit a clearing cookie while found, break at
the first absent index.  `fuel` is the remaining iteration budget of the Go
`for` loop, `i` the current index, `-36000` the `-10 * time.Hour` duration. -/
def clearChunkLoop (cfg : Config) (now : Int) (host : String)
    (reqCookieNames : List String) (base : String) : Nat → Nat → List SetCookie
  | 0, _ => []
  | fuel + 1, i =>
    if reqCookieNames.contains (chunkName base i) then
      dropCookie cfg now host (chunkName base i) "" (-36000) ::
        clearChunkLoop cfg now host reqCookieNames base fuel (i + 1)
    else []

/-- Embedding of `clearRefreshTokenCookie` (cookies.go): base clearing cookie,
then the divided-cookie scan `for i := 1; i < 600; i++` (599 probes). -/
def clearRefreshTokenCookie (cfg : Config) (now : Int) (host : String)
    (reqCookieNames : List String) : List SetCookie :=
  dropCookie cfg now host cfg.CookieRefreshName "" (-36000) ::
    clearChunkLoop cfg now host reqCookieNames cfg.CookieRefreshName 599 1

/-- Embedding of `clearAccessTokenCookie` (cookies.go): base clearing cookie,
then the divided-cookie scan `for i := 1; i < len(req.Cookies()); i++`
(`len(req.Cookies()) - 1` probes). -/
def clearAccessTokenCookie (cfg : Config) (now : Int) (host : String)
    (reqCookieNames : List String) : List SetCookie :=
  dropCookie cfg now host cfg.CookieAccessName "" (-36000) ::
    clearChunkLoop cfg now host reqCookieNames cfg.CookieAccessName
      (reqCookieNames.length - 1) 1

/-- Claim C3, evaluated at the failing input: a request carrying exactly the
dense chunk series `access-1` (base cookie absent).  `clearAccessTokenCookie`
bounds its scan by `len(req.Cookies()) - 1 = 0`, so the present chunk
`access-1` is never cleared, against the claim; `clearRefreshTokenCookie` on
the analogous request does clear its chunk, showing the intended behaviour. -/
theorem claim_C3_clear_divergence :
    (clearAccessTokenCookie cfgNoSess 0 "h" ["access-1"]).map SetCookie.name =
      ["access"] ∧
    "access-1" ∈ (["access-1"] : List String) ∧
    "access-1" ∉ ((clearAccessTokenCookie cfgNoSess 0 "h" ["access-1"]).map
      SetCookie.name) ∧
    clearRefreshTokenCookie cfgNoSess 0 "h" ["refresh-1"] =
      [⟨"d", false, "refresh", "/", false, "", some (-36000)⟩,
       ⟨"d", false, "refresh-1", "/", false, "", some (-36000)⟩] := by decide

/-- The resource-configuration fields the middleware reads (resource.go is not
among the verified sources; field names follow the Go struct). -/
structure Resource where
  Roles : List String
  Groups : List String
  RequireAnyRole : Bool
  EnableCSRF : Bool
  deriving Repr, DecidableEq

/-- Modelled from the spec: `hasAccess` is defined in utils.go, which is not
among the verified sources.  Spec 4.6 fixes its semantics at the two call sites
of admissionMiddleware — roles via `hasAccess(R, U, !RequireAnyRole, false)`
(any-of when `require_any_role`, all-of otherwise, empty list permits) and
groups via `hasAccess(H, G, false, true)` (always all-required). -/
def hasAccess (need has : List String) (all forceAll : Bool) : Bool :=
  if need.isEmpty then true
  else if all || forceAll then need.all fun x => has.contains x
  else need.any fun x => has.contains x

/-- What the admission stage does with one request: pass it through untouched
(decision already made upstream), deny with the uniform 403, or admit. -/
inductive AdmissionOutcome where
  | passthrough
  | forbidden
  | permitted
  deriving Repr, DecidableEq

/-- Embedding of the decision sequence of `admissionMiddleware`
(middleware.go lines 259-324): the short-circuit on `scope.AccessDenied`, the
role check, the group check, then the configured claim matchers (their
outcomes are the `claimChecks` parameter; an empty list models an empty
`match_claims` configuration). -/
def admissionDecision (res : Resource) (accessDenied : Bool)
    (userRoles userGroups : List String) (claimChecks : List Bool) : AdmissionOutcome :=
  if accessDenied then .passthrough
  else if !(hasAccess res.Roles userRoles (!res.RequireAnyRole) false) then .forbidden
  else if !(hasAccess res.Groups userGroups false true) then .forbidden
  else if claimChecks.any (fun ok => !ok) then .forbidden
  else .permitted

lemma admission_permitted_iff (res : Resource) (userRoles userGroups : List String)
    (claimChecks : List Bool) :
    admissionDecision res false userRoles userGroups claimChecks = .permitted ↔
      (hasAccess res.Roles userRoles (!res.RequireAnyRole) false = true ∧
       hasAccess res.Groups userGroups false true = true ∧
       claimChecks.any (fun ok => !ok) = false) := by
  unfold admissionDecision
  by_cases h1 : hasAccess res.Roles userRoles (!res.RequireAnyRole) false <;>
    by_cases h2 : hasAccess res.Groups userGroups false true <;>
      by_cases h3 : claimChecks.any (fun ok => !ok) <;>
        simp [h1, h2, h3]

lemma hasAccess_inter_iff (need has : List String) :
    hasAccess need has false false = true ↔ (need = [] ∨ ∃ x ∈ need, x ∈ has) := by
  unfold hasAccess
  by_cases h : need.isEmpty
  · have he : need = [] := List.isEmpty_iff.mp h
    simp [h, he]
  · have hne : ¬ need = [] := fun e => h (by simp [e])
    simp [h, hne, List.any_eq_true, List.elem_iff]

lemma hasAccess_subset_iff (need has : List String) (all forceAll : Bool)
    (hor : (all || forceAll) = true) :
    hasAccess need has all forceAll = true ↔ ∀ x ∈ need, x ∈ has := by
  unfold hasAccess
  by_cases h : need.isEmpty
  · simp [h, List.isEmpty_iff.mp h]
  · simp [h, hor, List.all_eq_true, List.elem_iff]

/-- Claim C4: with no claim matchers configured, admission permits exactly when
the role check and the group check both pass — roles: intersection non-empty or
empty required set under `require_any_role`, subset otherwise; groups: always
subset (or empty).  In particular `require_any_role` with an empty role set
passes the role check. -/
theorem claim_C4_admission (res : Resource) (userRoles userGroups : List String) :
    (admissionDecision res false userRoles userGroups [] = .permitted ↔
      ((if res.RequireAnyRole then res.Roles = [] ∨ ∃ r ∈ res.Roles, r ∈ userRoles
        else ∀ r ∈ res.Roles, r ∈ userRoles) ∧
       (∀ g ∈ res.Groups, g ∈ userGroups))) ∧
    (res.RequireAnyRole = true → res.Roles = [] →
      hasAccess res.Roles userRoles (!res.RequireAnyRole) false = true) := by
  constructor
  · rw [admission_permitted_iff]
    rw [hasAccess_subset_iff res.Groups userGroups false true rfl]
    by_cases hany : res.RequireAnyRole
    · rw [if_pos hany, hany]
      rw [show (!true) = false from rfl, hasAccess_inter_iff]
      simp
    · rw [if_neg hany]
      rw [show res.RequireAnyRole = false from by simpa using hany]
      rw [show (!false) = true from rfl,
        hasAccess_subset_iff res.Roles userRoles true false rfl]
      simp
  · intro hany hr
    rw [hr]
    rfl

theorem claim_C4_witness :
    (Resource.mk [] ["g1"] true false).RequireAnyRole = true ∧
    (Resource.mk [] ["g1"] true false).Roles = [] ∧
    hasAccess (Resource.mk [] ["g1"] true false).Roles ["u1"]
      (!(Resource.mk [] ["g1"] true false).RequireAnyRole) false = true :=
  ⟨rfl, rfl, (claim_C4_admission (Resource.mk [] ["g1"] true false) ["u1"] ["g1"]).2 rfl rfl⟩

/-- `strings.Contains(s, pat)`: `pat` occurs as a substring of `s`. -/
def containsSubAux (pat : List Char) : List Char → Bool
  | [] => pat.isPrefixOf []
  | h :: t => pat.isPrefixOf (h :: t) || containsSubAux pat t

def strContains (s pat : String) : Bool := containsSubAux pat.toList s.toList

example : strContains "oidc: token is expired" "token is expired" = true := by decide

example : strContains "bad signature" "token is expired" = false := by decide

/-- `strings.Split(s, sep)` for a one-character separator, as used on the
space-separated `scope` claim. -/
def splitOnCharAux (sep : Char) : List Char → List Char → List (List Char)
  | [], acc => [acc.reverse]
  | c :: rest, acc =>
    if c = sep then acc.reverse :: splitOnCharAux sep rest []
    else splitOnCharAux sep rest (c :: acc)

/-- `strings.Split(scopeClaim, " ")`. -/
def splitScopes (s : String) : List String :=
  (splitOnCharAux ' ' s.toList []).map String.mk

example : splitScopes "openid email profile" = ["openid", "email", "profile"] := by decide

/-- The outcomes `verifyToken` (client.go) can return: `nil`,
`ErrAccessTokenExpired`, the verifier's error passed through unchanged, or one
of the scope-check errors built with `fmt.Errorf`. -/
inductive VerifyErr where
  | accessTokenExpired
  | verifyFailed (msg : String)
  | claimsFailed
  | scopeClaimAbsent
  | scopeClaimNotString
  | requiredScopeAbsent (s : String)
  deriving Repr, DecidableEq

/-- A claim value as the scope check sees it: a JSON string, an array of
strings, or anything else. -/
inductive ClaimValue where
  | str (s : String)
  | strs (l : List String)
  | other
  deriving Repr, DecidableEq

abbrev Claims := List (String × ClaimValue)

/-- `claims["scope"]`-style lookup. -/
def lookupClaim (cs : Claims) (k : String) : Option ClaimValue :=
  (cs.find? fun p => p.1 == k).map Prod.snd

/-- Embedding of `verifyToken` (client.go): `jwtVerifyErr` is the result of
`client.VerifyJWT(token)` (`some msg` on failure), `claims` the result of
`token.Claims()`.  Returns `none` for a `nil` error. -/
def verifyToken (cfg : Config) (jwtVerifyErr : Option String)
    (claims : Except Unit Claims) : Option VerifyErr :=
  match jwtVerifyErr with
  | some msg =>
    if strContains msg "token is expired" then some .accessTokenExpired
    else some (.verifyFailed msg)
  | none =>
    if cfg.RequiredScopes.length > 0 then
      match claims with
      | .error _ => some .claimsFailed
      | .ok cs =>
        match lookupClaim cs "scope" with
        | none => some .scopeClaimAbsent
        | some (.str s) =>
          match cfg.RequiredScopes.find? (fun req => !((splitScopes s).contains req)) with
          | some req => some (.requiredScopeAbsent req)
          | none => none
        | some _ => some .scopeClaimNotString
    else none

/-- Claim C6: `verifyToken` maps a "token is expired" verification failure to
`ErrAccessTokenExpired`, passes any other verification failure through
unchanged, and — when required scopes are configured — succeeds iff the `scope`
claim is present, is a string, and its space-separated entries contain every
required scope. -/
theorem claim_C6_verify_token (cfg : Config) (msg : String)
    (claims : Except Unit Claims) (cs : Claims) :
    (strContains msg "token is expired" = true →
      verifyToken cfg (some msg) claims = some .accessTokenExpired) ∧
    (strContains msg "token is expired" = false →
      verifyToken cfg (some msg) claims = some (.verifyFailed msg)) ∧
    (cfg.RequiredScopes ≠ [] →
      (verifyToken cfg none (.ok cs) = none ↔
        ∃ s, lookupClaim cs "scope" = some (.str s) ∧
          ∀ req ∈ cfg.RequiredScopes, req ∈ splitScopes s)) := by
  refine ⟨fun h => by simp [verifyToken, h], fun h => by simp [verifyToken, h], fun hne => ?_⟩
  have hlen : 0 < cfg.RequiredScopes.length := List.length_pos.mpr hne
  unfold verifyToken
  rw [if_pos hlen]
  cases hl : lookupClaim cs "scope" with
  | none => simp [hl]
  | some v =>
    simp only [hl]
    cases v with
    | str s =>
      cases hf : cfg.RequiredScopes.find? (fun req => !((splitScopes s).contains req)) with
      | none =>
        simp only [hf]
        constructor
        · intro _
          refine ⟨s, rfl, fun req hreq => ?_⟩
          have := List.find?_eq_none.mp hf req hreq
          simpa [List.elem_iff] using this
        · intro _
          trivial
      | some req =>
        simp only [hf]
        constructor
        · intro h
          exact absurd h (by simp)
        · rintro ⟨s', hs', hall⟩
          have hss : s' = s := by
            cases hs'
            rfl
          subst hss
          have hmem := List.find?_some hf
          have hin := List.mem_of_find?_eq_some hf
          have := hall req hin
          simp [List.elem_iff, this] at hmem
    | strs l => simp
    | other => simp

theorem claim_C6_witness :
    strContains "oidc: token is expired" "token is expired" = true ∧
    verifyToken ⟨"", false, true, false, "a", "r", false, false, false, ["openid"]⟩
      (some "oidc: token is expired") (.ok []) = some .accessTokenExpired ∧
    (["openid"] : List String) ≠ [] ∧
    verifyToken ⟨"", false, true, false, "a", "r", false, false, false, ["openid"]⟩
      none (.ok [("scope", .str "openid email")]) = none :=
  ⟨by decide,
   (claim_C6_verify_token ⟨"", false, true, false, "a", "r", false, false, false, ["openid"]⟩
     "oidc: token is expired" (.ok []) []).1 (by decide),
   by decide,
   ((claim_C6_verify_token ⟨"", false, true, false, "a", "r", false, false, false, ["openid"]⟩
     "x" (.ok []) [("scope", .str "openid email")]).2.2 (by decide)).mpr
     ⟨"openid email", by decide, by decide⟩⟩

/-- The errors `r.refreshToken` can hand back to the authentication middleware
(session.go is not among the verified sources; the middleware only compares
against the sentinel values `ErrEncode` and `ErrEncryption`). -/
inductive RefreshErr where
  | encode
  | encryption
  | refreshTokenExpired
  | otherErr (msg : String)
  deriving Repr, DecidableEq

/-- The terminal actions of `authenticationMiddleware`: redirect to
authorization, render the uniform 403, return HTTP 500, or continue down the
chain. -/
inductive AuthOutcome where
  | redirectToAuthorization
  | accessForbidden
  | serverError500
  | continueChain
  deriving Repr, DecidableEq

/-- The slice of the user context the middleware reads: `user.isExpired()`. -/
structure UserCtx where
  expired : Bool
  deriving Repr, DecidableEq

/-- Embedding of the decision sequence of `authenticationMiddleware`
(middleware.go lines 110-197): `identity` is the result of `r.getIdentity`,
`verifyRes` of `r.verifyToken` (compared against `ErrAccessTokenExpired`), and
`refreshRes` of `r.refreshToken` (`none` for a nil error). -/
def authenticationDecision (cfg : Config) (identity : Option UserCtx)
    (verifyRes : Option VerifyErr) (refreshRes : Option RefreshErr) : AuthOutcome :=
  match identity with
  | none => .redirectToAuthorization
  | some user =>
    if cfg.SkipTokenVerification then
      if user.expired then .redirectToAuthorization else .continueChain
    else
      match verifyRes with
      | none => .continueChain
      | some ve =>
        if ve ≠ .accessTokenExpired then .accessForbidden
        else if !cfg.EnableRefreshTokens then .redirectToAuthorization
        else
          match refreshRes with
          | none => .continueChain
          | some .encode => .serverError500
          | some .encryption => .serverError500
          | some _ => .redirectToAuthorization

/-- Claim C5: when the refresh step (entered after `ErrAccessTokenExpired` with
refresh enabled) fails, the middleware answers HTTP 500 exactly for `ErrEncode`
and `ErrEncryption` — never redirecting then — and redirects to authorization
for every other refresh error. -/
theorem claim_C5_refresh_failure (cfg : Config) (u : UserCtx) (e : RefreshErr)
    (hskip : cfg.SkipTokenVerification = false)
    (href : cfg.EnableRefreshTokens = true) :
    (authenticationDecision cfg (some u) (some .accessTokenExpired) (some e) =
        .serverError500 ↔ (e = .encode ∨ e = .encryption)) ∧
    (e ≠ .encode → e ≠ .encryption →
      authenticationDecision cfg (some u) (some .accessTokenExpired) (some e) =
        .redirectToAuthorization) := by
  unfold authenticationDecision
  rw [hskip, href]
  cases e <;> simp

/-- A configuration with token verification on and refresh tokens enabled. -/
def cfgRefresh : Config := ⟨"", false, true, false, "access", "refresh", false, true, false, []⟩

theorem claim_C5_witness :
    cfgRefresh.SkipTokenVerification = false ∧ cfgRefresh.EnableRefreshTokens = true ∧
    authenticationDecision cfgRefresh (some ⟨false⟩) (some .accessTokenExpired)
      (some .encode) = .serverError500 ∧
    authenticationDecision cfgRefresh (some ⟨false⟩) (some .accessTokenExpired)
      (some .refreshTokenExpired) = .redirectToAuthorization :=
  ⟨rfl, rfl,
   (claim_C5_refresh_failure cfgRefresh ⟨false⟩ .encode rfl rfl).1.mpr (Or.inl rfl),
   (claim_C5_refresh_failure cfgRefresh ⟨false⟩ .refreshTokenExpired rfl rfl).2
     (by decide) (by decide)⟩

/-- A token-endpoint response as `getRefreshedToken` consumes it. -/
structure TokenResponse where
  AccessToken : String
  RefreshToken : String
  deriving Repr, DecidableEq

/-- The slice of the parsed identity `getRefreshedToken` reads:
`identity.ExpiresAt`. -/
structure TokenIdentity where
  ExpiresAt : Int
  deriving Repr, DecidableEq

/-- The value `getRefreshedToken` returns: one of its error paths, or the
5-tuple minus the nil error (token, refresh token, access expiry, refresh
ttl). -/
inductive RefreshedResult where
  | refreshTokenExpired
  | otherErr (msg : String)
  | parseFailed
  | ok (token : String) (refreshToken : String) (expiresAt : Int) (refreshExpiresIn : Int)
  deriving Repr, DecidableEq

/-- Embedding of `getRefreshedToken` (client.go): `providerResp` is the outcome
of `getToken` (`.error msg` carries `err.Error()`), `rawRefreshExpiresIn` the
outcome of unmarshalling `refresh_expires_in` from `response.RawBody` (`none`
when the field is absent or the unmarshal fails, `some none` when present but
not an integer, `some (some n)` for the integer `n`), and `parseResult` the
outcome of `parseToken(response.AccessToken)`.  The refresh ttl stays in
seconds. -/
def getRefreshedToken (providerResp : Except String TokenResponse)
    (rawRefreshExpiresIn : Option (Option Int))
    (parseResult : Except Unit TokenIdentity) : RefreshedResult :=
  match providerResp with
  | .error msg =>
    if strContains msg "refresh token has expired" then .refreshTokenExpired
    else .otherErr msg
  | .ok resp =>
    let refreshExpiresIn : Int :=
      match rawRefreshExpiresIn with
      | some (some n) => n
      | _ => 0
    match parseResult with
    | .error _ => .parseFailed
    | .ok ident => .ok resp.AccessToken resp.RefreshToken ident.ExpiresAt refreshExpiresIn

/-- Claim C7 counterexample: when `refresh_expires_in` is absent from the raw
body, `getRefreshedToken` returns a zero refresh ttl — it does not fall back to
the access token's `expires_at` (here 100) as the refresh ttl. -/
theorem claim_C7_counterexample :
    getRefreshedToken (.ok ⟨"tok", "rtok"⟩) none (.ok ⟨100⟩) =
      .ok "tok" "rtok" 100 0 ∧
    getRefreshedToken (.ok ⟨"tok", "rtok"⟩) none (.ok ⟨100⟩) ≠
      .ok "tok" "rtok" 100 100 := by decide

/-- Claim C7 (amended): `getRefreshedToken` returns `ErrRefreshTokenExpired`
when the provider's error contains "refresh token has expired"; on success it
parses `refresh_expires_in` (integer seconds) from the raw body as the refresh
ttl, and when the field is absent or non-integer it returns a zero refresh ttl
alongside the access token's `expires_at` (which the caller may fall back
to). -/
theorem claim_C7_refresh_ttl (msg : String) (raw : Option (Option Int))
    (parseResult : Except Unit TokenIdentity)
    (hmsg : strContains msg "refresh token has expired" = true) :
    getRefreshedToken (.error msg) raw parseResult = .refreshTokenExpired ∧
    (∀ (resp : TokenResponse) (n : Int) (ident : TokenIdentity),
      getRefreshedToken (.ok resp) (some (some n)) (.ok ident) =
        .ok resp.AccessToken resp.RefreshToken ident.ExpiresAt n) ∧
    (∀ (resp : TokenResponse) (ident : TokenIdentity),
      getRefreshedToken (.ok resp) none (.ok ident) =
        .ok resp.AccessToken resp.RefreshToken ident.ExpiresAt 0) ∧
    (∀ (resp : TokenResponse) (ident : TokenIdentity),
      getRefreshedToken (.ok resp) (some none) (.ok ident) =
        .ok resp.AccessToken resp.RefreshToken ident.ExpiresAt 0) := by
  refine ⟨by simp [getRefreshedToken, hmsg], fun resp n ident => rfl,
    fun resp ident => rfl, fun resp ident => rfl⟩

theorem claim_C7_witness :
    strContains "oauth: refresh token has expired" "refresh token has expired" = true ∧
    getRefreshedToken (.error "oauth: refresh token has expired") none (.ok ⟨7⟩) =
      .refreshTokenExpired ∧
    getRefreshedToken (.ok ⟨"t", "r"⟩) (some (some 1800)) (.ok ⟨7⟩) =
      .ok "t" "r" 7 1800 :=
  ⟨by decide,
   (claim_C7_refresh_ttl "oauth: refresh token has expired" none (.ok ⟨7⟩) (by decide)).1,
   (claim_C7_refresh_ttl "oauth: refresh token has expired" none (.ok ⟨7⟩)
     (by decide)).2.1 ⟨"t", "r"⟩ 1800 ⟨7⟩⟩

/-- The slice of the request-scope identity the CSRF middleware reads:
`scope.Identity.isBearer()`. -/
structure IdentityCred where
  bearer : Bool
  deriving Repr, DecidableEq

/-- The `RequestScope` fields the CSRF middleware reads. -/
structure RequestScope where
  AccessDenied : Bool
  Identity : Option IdentityCred
  deriving Repr, DecidableEq

/-- Whether the request is handed to the next handler wrapped in
`gcsrf.UnsafeSkipCheck` (marked to skip the CSRF check) or untouched. -/
inductive CsrfAction where
  | skipMarked
  | unmarked
  deriving Repr, DecidableEq

/-- Embedding of `csrfSkipResourceMiddleware` (middleware.go lines 508-549):
with CSRF disabled globally the middleware is the identity; with the resource's
CSRF disabled every request is skip-marked; otherwise nil scope, denied scope
or missing identity pass unmarked, a bearer identity is skip-marked, and any
other identity passes unmarked. -/
def csrfSkipResourceDecision (cfg : Config) (res : Resource)
    (scope : Option RequestScope) : CsrfAction :=
  if cfg.EnableCSRF then
    if !res.EnableCSRF then .skipMarked
    else
      match scope with
      | none => .unmarked
      | some s =>
        if s.AccessDenied then .unmarked
        else
          match s.Identity with
          | none => .unmarked
          | some cred => if cred.bearer then .skipMarked else .unmarked
  else .unmarked

/-- Claim C8: with CSRF enabled, a resource that disables CSRF skip-marks every
request; otherwise a bearer-credentialed request is skip-marked, while nil,
already-denied or unauthenticated scopes pass through unmarked. -/
theorem claim_C8_csrf_skip (cfg : Config) (res : Resource)
    (scope : Option RequestScope) (hcsrf : cfg.EnableCSRF = true) :
    (res.EnableCSRF = false → csrfSkipResourceDecision cfg res scope = .skipMarked) ∧
    (∀ (s : RequestScope) (cred : IdentityCred), res.EnableCSRF = true →
      scope = some s → s.AccessDenied = false → s.Identity = some cred →
      cred.bearer = true → csrfSkipResourceDecision cfg res scope = .skipMarked) ∧
    (∀ (s : RequestScope), res.EnableCSRF = true → scope = some s →
      (s.AccessDenied = true ∨ s.Identity = none ∨
        (∃ cred, s.Identity = some cred ∧ cred.bearer = false)) →
      csrfSkipResourceDecision cfg res scope = .unmarked) ∧
    (res.EnableCSRF = true → scope = none →
      csrfSkipResourceDecision cfg res scope = .unmarked) := by
  unfold csrfSkipResourceDecision
  rw [hcsrf]
  refine ⟨fun h => by simp [h], fun s cred hres hs hd hid hb => ?_, fun s hres hs hcase => ?_,
    fun hres hn => by simp [hres, hn]⟩
  · subst hs
    simp [hres, hd, hid, hb]
  · subst hs
    rcases hcase with hd | hid | ⟨cred, hid, hb⟩
    · simp [hres, hd]
    · simp [hres, hid]
    · simp [hres, hid, hb]

/-- A configuration with CSRF protection enabled. -/
def cfgCsrf : Config := ⟨"", false, true, false, "access", "refresh", false, false, true, []⟩

theorem claim_C8_witness :
    cfgCsrf.EnableCSRF = true ∧
    csrfSkipResourceDecision cfgCsrf (Resource.mk [] [] false false) (some ⟨false, none⟩) =
      .skipMarked ∧
    csrfSkipResourceDecision cfgCsrf (Resource.mk [] [] false true)
      (some ⟨false, some ⟨true⟩⟩) = .skipMarked ∧
    csrfSkipResourceDecision cfgCsrf (Resource.mk [] [] false true)
      (some ⟨false, none⟩) = .unmarked :=
  ⟨rfl,
   (claim_C8_csrf_skip cfgCsrf (Resource.mk [] [] false false) (some ⟨false, none⟩) rfl).1 rfl,
   (claim_C8_csrf_skip cfgCsrf (Resource.mk [] [] false true)
     (some ⟨false, some ⟨true⟩⟩) rfl).2.1 ⟨false, some ⟨true⟩⟩ ⟨true⟩ rfl rfl rfl rfl rfl,
   (claim_C8_csrf_skip cfgCsrf (Resource.mk [] [] false true)
     (some ⟨false, none⟩) rfl).2.2.1 ⟨false, none⟩ rfl rfl (Or.inr (Or.inl rfl))⟩
